import Mathlib

/-!
Verification of `tensorpipe/common/callback.h`.

The file shallowly embeds the two components of the header:

* `runIfAlive`: the liveness-gated wrapper around a callback.  The wrapper
  captures a weak reference; at each invocation it calls `weak.lock()` and
  runs the inner function only when the lock attempt yields a live subject.
  We model the result of `weak.lock()` at a given invocation as an
  `Option T` argument supplied at that invocation (`some t` = subject still
  alive, `none` = subject already destroyed), and an invocation of the inner
  function as the element it contributes to the returned event list.

* `RearmableCallback`: an optional callback slot (`callback_`, an
  `optional<F>`) plus a FIFO backlog (`queue_`, a `std::deque` with its
  front at the head of the list), guarded by one mutex.  Each operation is a
  function from the pre-state to the post-state paired with the list of
  callback invocations the call performs, in order.  An `Invocation` records
  the callback value, the argument tuple passed to `cb_apply`, and whether
  the instance's mutex was still held when `cb_apply` ran: in `arm` and
  `trigger` the source calls `lock.unlock()` before `cb_apply`, while
  `triggerIfArmed` holds a `std::lock_guard` for its whole body, so there
  `cb_apply` runs with the mutex held.

Callback values and argument tuples are abstract type parameters `F` and
`A`: the C++ class is generic over them and never inspects either.
-/

namespace Tensorpipe

/-- One invocation of a user-supplied callback performed by an operation of
`RearmableCallback`: the callback value handed to `cb_apply`, the argument
tuple it receives, and whether the instance's mutex was still held when the
callback body began executing. -/
structure Invocation (F A : Type) where
  fn : F
  args : A
  lockHeld : Bool
deriving Repr, DecidableEq

/-- State of a `RearmableCallback<F, Args...>` instance: the `optional<F>
callback_` slot and the `std::deque<TStoredArgs> queue_` backlog, front at
the head. -/
structure RearmableCallback (F A : Type) where
  callback : Option F
  queue : List A
deriving Repr, DecidableEq

/-- A default-constructed `RearmableCallback`: empty slot, empty backlog. -/
def RearmableCallback.init (F A : Type) : RearmableCallback F A :=
  ⟨none, []⟩

/-- `RearmableCallback::arm`: under the lock, if `queue_` is non-empty, pop
its front entry, unlock, and apply `f` to it (the slot is left untouched);
otherwise store `f` in `callback_`. -/
def RearmableCallback.arm (s : RearmableCallback F A) (f : F) :
    RearmableCallback F A × List (Invocation F A) :=
  match s.queue with
  | args :: rest => (⟨s.callback, rest⟩, [⟨f, args, false⟩])
  | [] => (⟨some f, s.queue⟩, [])

/-- `RearmableCallback::trigger`: under the lock, if `callback_` holds a
value, move it out, reset the slot, unlock, and apply it to `args`;
otherwise append `args` at the back of `queue_`. -/
def RearmableCallback.trigger (s : RearmableCallback F A) (args : A) :
    RearmableCallback F A × List (Invocation F A) :=
  match s.callback with
  | some f => (⟨none, s.queue⟩, [⟨f, args, false⟩])
  | none => (⟨s.callback, s.queue ++ [args]⟩, [])

/-- `RearmableCallback::triggerIfArmed`: under a `std::lock_guard` held for
the whole body, if `callback_` holds a value, move it out, reset the slot,
and apply it to `args` while still holding the lock; otherwise do nothing. -/
def RearmableCallback.triggerIfArmed (s : RearmableCallback F A) (args : A) :
    RearmableCallback F A × List (Invocation F A) :=
  match s.callback with
  | some f => (⟨none, s.queue⟩, [⟨f, args, true⟩])
  | none => (s, [])

/-- One call on a `RearmableCallback` instance. -/
inductive Op (F A : Type) where
  | arm (f : F)
  | trigger (args : A)
  | triggerIfArmed (args : A)
deriving Repr, DecidableEq

/-- Whether an `Op` is a `triggerIfArmed` call. -/
def Op.isFlush : Op F A → Bool
  | Op.triggerIfArmed _ => true
  | _ => false

/-- Perform one call on a state. -/
def RearmableCallback.step (s : RearmableCallback F A) :
    Op F A → RearmableCallback F A × List (Invocation F A)
  | Op.arm f => s.arm f
  | Op.trigger args => s.trigger args
  | Op.triggerIfArmed args => s.triggerIfArmed args

/-- Perform a sequence of calls, collecting every callback invocation in the
order it happens. -/
def RearmableCallback.run (s : RearmableCallback F A) :
    List (Op F A) → RearmableCallback F A × List (Invocation F A)
  | [] => (s, [])
  | op :: ops =>
    let r := s.step op
    let r2 := r.1.run ops
    (r2.1, r.2 ++ r2.2)

/-- Number of `trigger` calls in a call sequence. -/
def countTriggers (ops : List (Op F A)) : Nat :=
  ops.countP fun o =>
    match o with
    | Op.trigger _ => true
    | _ => false

/-- The argument tuples of the `trigger` calls of a sequence, in call
order. -/
def triggerArgs : List (Op F A) → List A
  | [] => []
  | Op.trigger args :: ops => args :: triggerArgs ops
  | _ :: ops => triggerArgs ops

/-- The `callback_`-occupied-implies-empty-backlog invariant. -/
def RearmableCallback.Inv (s : RearmableCallback F A) : Prop :=
  s.callback.isSome = true → s.queue = []

/-- Shallow embedding of the closure returned by `runIfAlive`.  The closure
captures the inner function `fn` (and a weak reference); at each invocation
it receives the result of `weak.lock()` at that moment (`some shared` when
the subject is alive, `none` after destruction) together with the forwarded
arguments, and returns the list of inner-function invocations it performs,
each recorded as the value `fn shared args`. -/
def runIfAlive (fn : T → A → E) : Option T → A → List E :=
  fun lockResult args =>
    match lockResult with
    | some shared => [fn shared args]
    | none => []

/-- Invoking the wrapper returned by `runIfAlive` repeatedly: one entry per
invocation, each carrying the `weak.lock()` outcome at that invocation and
the forwarded arguments. -/
def invokeRepeatedly (fn : T → A → E) (calls : List (Option T × A)) :
    List (List E) :=
  calls.map fun c => runIfAlive fn c.1 c.2

namespace RearmableCallback

theorem inv_step (s : RearmableCallback F A) (op : Op F A) (h : s.Inv) :
    (s.step op).1.Inv := by
  cases op with
  | arm f =>
    cases hq : s.queue with
    | nil => intro _; simp [step, arm, hq]
    | cons a rest =>
      cases hc : s.callback with
      | none => simp [step, arm, hq, Inv, hc]
      | some f0 =>
        exfalso
        have := h (by simp [hc])
        simp [hq] at this
  | trigger args =>
    cases hc : s.callback with
    | none => simp [step, trigger, hc, Inv]
    | some f0 =>
      have hq : s.queue = [] := h (by simp [hc])
      simp [step, trigger, hc, Inv, hq]
  | triggerIfArmed args =>
    cases hc : s.callback with
    | none => simpa [step, triggerIfArmed, hc] using h
    | some f0 =>
      have hq : s.queue = [] := h (by simp [hc])
      simp [step, triggerIfArmed, hc, Inv, hq]

theorem inv_run (ops : List (Op F A)) (s : RearmableCallback F A)
    (h : s.Inv) : (s.run ops).1.Inv := by
  induction ops generalizing s with
  | nil => simpa [run] using h
  | cons op ops ih =>
    simpa [run] using ih (s.step op).1 (inv_step s op h)

theorem step_args_of_noflush (s : RearmableCallback F A) (op : Op F A)
    (hInv : s.Inv) (hNoFlush : op.isFlush = false) :
    (s.step op).2.map Invocation.args ++ (s.step op).1.queue
      = s.queue ++ triggerArgs [op] := by
  cases op with
  | arm f =>
    cases hq : s.queue with
    | nil => simp [step, arm, hq, triggerArgs]
    | cons a rest => simp [step, arm, hq, triggerArgs]
  | trigger args =>
    cases hc : s.callback with
    | none => simp [step, trigger, hc, triggerArgs]
    | some f0 =>
      have hq : s.queue = [] := hInv (by simp [hc])
      simp [step, trigger, hc, hq, triggerArgs]
  | triggerIfArmed args => simp [Op.isFlush] at hNoFlush

theorem triggerArgs_cons (op : Op F A) (ops : List (Op F A)) :
    triggerArgs (op :: ops) = triggerArgs [op] ++ triggerArgs ops := by
  cases op <;> simp [triggerArgs]

theorem run_args_of_noflush (ops : List (Op F A))
    (s : RearmableCallback F A) (hInv : s.Inv)
    (hNoFlush : ∀ o ∈ ops, o.isFlush = false) :
    (s.run ops).2.map Invocation.args ++ (s.run ops).1.queue
      = s.queue ++ triggerArgs ops := by
  induction ops generalizing s with
  | nil => simp [run, triggerArgs]
  | cons op ops ih =>
    have hop : op.isFlush = false := hNoFlush op (by simp)
    have hops : ∀ o ∈ ops, o.isFlush = false := fun o ho =>
      hNoFlush o (by simp [ho])
    have h1 := step_args_of_noflush s op hInv hop
    have h2 := ih (s.step op).1 (inv_step s op hInv) hops
    calc ((s.run (op :: ops)).2.map Invocation.args)
          ++ (s.run (op :: ops)).1.queue
        = (s.step op).2.map Invocation.args
            ++ (((s.step op).1.run ops).2.map Invocation.args
                ++ ((s.step op).1.run ops).1.queue) := by
          simp [run, List.append_assoc]
      _ = (s.step op).2.map Invocation.args
            ++ ((s.step op).1.queue ++ triggerArgs ops) := by rw [h2]
      _ = ((s.step op).2.map Invocation.args ++ (s.step op).1.queue)
            ++ triggerArgs ops := by rw [List.append_assoc]
      _ = (s.queue ++ triggerArgs [op]) ++ triggerArgs ops := by rw [h1]
      _ = s.queue ++ triggerArgs (op :: ops) := by
          rw [List.append_assoc, ← triggerArgs_cons]

end RearmableCallback

open RearmableCallback in
/-- C1 counterexample: on the call sequence `arm 7; triggerIfArmed 3` from a
fresh instance, the single callback invocation performed happens with the
instance's mutex still held (`triggerIfArmed` holds a `std::lock_guard`
around `cb_apply`), contradicting the claim that every operation releases
the mutex before the callback body begins. -/
theorem triggerIfArmed_invokes_under_lock_cex :
    (((RearmableCallback.init Nat Nat).run
        [Op.arm 7, Op.triggerIfArmed 3]).2.map Invocation.lockHeld)
      = [true] := by
  decide

open RearmableCallback in
/-- C1 amended: `arm` and `trigger` release the mutex before invoking any
user-supplied callback (so such a callback may reentrantly call back into
the instance), but every callback invocation performed by `triggerIfArmed`
happens while the mutex is still held. -/
theorem lock_released_before_callback_except_flush
    (s : RearmableCallback F A) (f : F) (a : A) :
    (∀ i ∈ (s.arm f).2, i.lockHeld = false) ∧
    (∀ i ∈ (s.trigger a).2, i.lockHeld = false) ∧
    (∀ i ∈ (s.triggerIfArmed a).2, i.lockHeld = true) := by
  refine ⟨?_, ?_, ?_⟩
  · intro i hi
    cases hq : s.queue with
    | nil => simp [RearmableCallback.arm, hq] at hi
    | cons x rest =>
      simp [RearmableCallback.arm, hq] at hi
      simp [hi]
  · intro i hi
    cases hc : s.callback with
    | none => simp [RearmableCallback.trigger, hc] at hi
    | some f0 =>
      simp [RearmableCallback.trigger, hc] at hi
      simp [hi]
  · intro i hi
    cases hc : s.callback with
    | none => simp [RearmableCallback.triggerIfArmed, hc] at hi
    | some f0 =>
      simp [RearmableCallback.triggerIfArmed, hc] at hi
      simp [hi]

/-- Witness for the amended C1 theorem at concrete states: an `arm` that
fires does so with the lock released, and a `triggerIfArmed` that fires does
so with the lock held. -/
theorem lock_released_before_callback_except_flush_witness :
    ((⟨(7 : Nat), (2 : Nat), false⟩ : Invocation Nat Nat)
        ∈ ((⟨none, [2]⟩ : RearmableCallback Nat Nat).arm 7).2 ∧
      Invocation.lockHeld (⟨7, 2, false⟩ : Invocation Nat Nat) = false) ∧
    ((⟨(7 : Nat), (3 : Nat), true⟩ : Invocation Nat Nat)
        ∈ ((⟨some 7, []⟩ : RearmableCallback Nat Nat).triggerIfArmed 3).2 ∧
      Invocation.lockHeld (⟨7, 3, true⟩ : Invocation Nat Nat) = true) :=
  ⟨⟨by decide,
    (lock_released_before_callback_except_flush
      (⟨none, [2]⟩ : RearmableCallback Nat Nat) 7 0).1
      ⟨7, 2, false⟩ (by decide)⟩,
   ⟨by decide,
    (lock_released_before_callback_except_flush
      (⟨some 7, []⟩ : RearmableCallback Nat Nat) 7 3).2.2
      ⟨7, 3, true⟩ (by decide)⟩⟩

open RearmableCallback in
/-- C2 counterexample: the single-call sequence `trigger 1` contains one
`trigger` call but performs zero callback invocations (the arguments are
enqueued in the backlog), so the total number of invocations does not equal
the total number of `trigger` calls for every finite `arm`/`trigger`
sequence. -/
theorem invocations_ne_triggers_cex :
    countTriggers ([Op.trigger 1] : List (Op Nat Nat)) = 1 ∧
    (((RearmableCallback.init Nat Nat).run
        [Op.trigger (1 : Nat)]).2.length = 0) := by
  constructor
  · decide
  · decide

open RearmableCallback in
/-- C2 amended: for every `triggerIfArmed`-free call sequence from the fresh
state, the argument tuples delivered to callbacks, in invocation order,
followed by the argument tuples still sitting in the backlog, are exactly
the argument tuples of the `trigger` calls in call order.  Hence each
invocation receives the argument tuple of one distinct prior `trigger`
call, tuples are consumed oldest-first, and the number of invocations
equals the number of `trigger` calls minus the number of entries left in
the backlog (equality holds exactly when the backlog ends empty). -/
theorem invocations_consume_triggers_fifo (ops : List (Op F A))
    (hNoFlush : ∀ o ∈ ops, o.isFlush = false) :
    ((RearmableCallback.init F A).run ops).2.map Invocation.args
        ++ ((RearmableCallback.init F A).run ops).1.queue
      = triggerArgs ops := by
  have h := run_args_of_noflush ops (RearmableCallback.init F A)
    (by intro h; rfl) hNoFlush
  simpa [RearmableCallback.init] using h

/-- Witness for the amended C2 theorem on the sequence
`trigger 1; arm 10; trigger 2`: the delivered argument tuples followed by
the leftover backlog equal the triggered tuples in order. -/
theorem invocations_consume_triggers_fifo_witness :
    (∀ o ∈ [Op.trigger (1 : Nat), Op.arm (10 : Nat), Op.trigger 2],
      o.isFlush = false) ∧
    ((RearmableCallback.init Nat Nat).run
        [Op.trigger 1, Op.arm 10, Op.trigger 2]).2.map Invocation.args
      ++ ((RearmableCallback.init Nat Nat).run
        [Op.trigger 1, Op.arm 10, Op.trigger 2]).1.queue
      = triggerArgs [Op.trigger (1 : Nat), Op.arm (10 : Nat), Op.trigger 2] :=
  ⟨by decide,
   invocations_consume_triggers_fifo
     [Op.trigger 1, Op.arm 10, Op.trigger 2] (by decide)⟩

open RearmableCallback in
/-- C3: in every state reachable from the fresh state by any sequence of
`arm`, `trigger` and `triggerIfArmed` calls, an occupied callback slot
implies an empty backlog: the armed-with-nonempty-backlog combination is
unreachable. -/
theorem armed_implies_backlog_empty (ops : List (Op F A)) :
    (((RearmableCallback.init F A).run ops).1.callback.isSome = true) →
    ((RearmableCallback.init F A).run ops).1.queue = [] :=
  inv_run ops (RearmableCallback.init F A) (by intro h; rfl)

/-- Witness for C3 at the concrete sequence `trigger 1; arm 10; arm 20`:
the final state is armed (slot holds `20`) and its backlog is empty. -/
theorem armed_implies_backlog_empty_witness :
    ((((RearmableCallback.init Nat Nat).run
        [Op.trigger 1, Op.arm 10, Op.arm 20]).1.callback.isSome = true)) ∧
    (((RearmableCallback.init Nat Nat).run
        [Op.trigger 1, Op.arm 10, Op.arm 20]).1.queue = []) :=
  ⟨by decide,
   armed_implies_backlog_empty [Op.trigger 1, Op.arm 10, Op.arm 20]
     (by decide)⟩

open RearmableCallback in
/-- C4: `arm f` with a non-empty backlog removes exactly the front entry and
invokes `f` synchronously with that entry (the slot is not written, no other
entry is consumed); with an empty backlog it stores `f` in the slot and
performs no invocation.  In particular, `trigger 1; trigger 2; arm 10;
arm 20` from a fresh instance invokes callback `10` with `1` and then
callback `20` with `2`. -/
theorem arm_consumes_front_or_stores (s : RearmableCallback F A) (f : F) :
    (∀ a rest, s.queue = a :: rest →
      s.arm f = (⟨s.callback, rest⟩, [⟨f, a, false⟩])) ∧
    (s.queue = [] → s.arm f = (⟨some f, []⟩, [])) ∧
    (((RearmableCallback.init Nat Nat).run
        [Op.trigger 1, Op.trigger 2, Op.arm 10, Op.arm 20]).2.map
      (fun i => (i.fn, i.args)) = [(10, 1), (20, 2)]) := by
  refine ⟨?_, ?_, ?_⟩
  · intro a rest hq
    simp [RearmableCallback.arm, hq]
  · intro hq
    simp [RearmableCallback.arm, hq]
  · decide

/-- Witness for C4 at a concrete state: arming `10` on an unarmed instance
whose backlog is `[1, 2]` pops only the front entry `1` and fires `10` with
it. -/
theorem arm_consumes_front_or_stores_witness :
    ((⟨none, [1, 2]⟩ : RearmableCallback Nat Nat).queue = 1 :: [2]) ∧
    ((⟨none, [1, 2]⟩ : RearmableCallback Nat Nat).arm 10
      = (⟨none, [2]⟩, [⟨10, 1, false⟩])) :=
  ⟨rfl,
   (arm_consumes_front_or_stores
     (⟨none, [1, 2]⟩ : RearmableCallback Nat Nat) 10).1 1 [2] rfl⟩

open RearmableCallback in
/-- C5: `trigger args` with an occupied slot empties the slot and invokes
the removed callback exactly once with `args`, with the lock released and
the backlog unchanged; with an empty slot it appends `args` at the back of
the backlog and performs no invocation. -/
theorem trigger_fires_or_enqueues (s : RearmableCallback F A) (a : A) :
    (∀ f, s.callback = some f →
      s.trigger a = (⟨none, s.queue⟩, [⟨f, a, false⟩])) ∧
    (s.callback = none → s.trigger a = (⟨none, s.queue ++ [a]⟩, [])) := by
  constructor
  · intro f hc
    simp [RearmableCallback.trigger, hc]
  · intro hc
    simp [RearmableCallback.trigger, hc]

/-- Witness for C5 at a concrete state: triggering `5` on an instance armed
with callback `7` fires `7` with `5` and empties the slot. -/
theorem trigger_fires_or_enqueues_witness :
    ((⟨some 7, []⟩ : RearmableCallback Nat Nat).callback = some 7) ∧
    ((⟨some 7, []⟩ : RearmableCallback Nat Nat).trigger 5
      = (⟨none, []⟩, [⟨7, 5, false⟩])) :=
  ⟨rfl,
   (trigger_fires_or_enqueues
     (⟨some 7, []⟩ : RearmableCallback Nat Nat) 5).1 7 rfl⟩

open RearmableCallback in
/-- C6: `triggerIfArmed args` with an empty slot performs no invocation and
leaves the whole state (slot and backlog) exactly unchanged, so any
subsequent call sequence behaves as if this call had never happened and no
later `arm` can deliver these arguments. -/
theorem triggerIfArmed_unarmed_noop (s : RearmableCallback F A) (a : A)
    (h : s.callback = none) :
    s.triggerIfArmed a = (s, []) ∧
    ∀ ops, ((s.triggerIfArmed a).1.run ops) = s.run ops := by
  have h1 : s.triggerIfArmed a = (s, []) := by
    simp [RearmableCallback.triggerIfArmed, h]
  exact ⟨h1, fun ops => by rw [h1]⟩

/-- Witness for C6 at a concrete state: flushing `5` on a fresh (unarmed)
instance is a silent no-op. -/
theorem triggerIfArmed_unarmed_noop_witness :
    ((RearmableCallback.init Nat Nat).callback = none) ∧
    ((RearmableCallback.init Nat Nat).triggerIfArmed 5
      = (RearmableCallback.init Nat Nat, [])) :=
  ⟨rfl, (triggerIfArmed_unarmed_noop (RearmableCallback.init Nat Nat) 5 rfl).1⟩

open RearmableCallback in
/-- C7: `triggerIfArmed args` with an occupied slot produces the same
post-state as `trigger args` from that state, and both perform exactly one
invocation, of the removed callback with `args`; the slot ends empty and the
backlog is unchanged.  (The two calls differ only in that `triggerIfArmed`
still holds the mutex during the invocation; the state effect and the
invoked callback/argument pair are identical.) -/
theorem triggerIfArmed_armed_matches_trigger (s : RearmableCallback F A)
    (a : A) (f : F) (h : s.callback = some f) :
    (s.triggerIfArmed a).1 = (s.trigger a).1 ∧
    (s.triggerIfArmed a).2.map (fun i => (i.fn, i.args)) = [(f, a)] ∧
    (s.trigger a).2.map (fun i => (i.fn, i.args)) = [(f, a)] ∧
    (s.triggerIfArmed a).1.callback = none ∧
    (s.triggerIfArmed a).1.queue = s.queue := by
  simp [RearmableCallback.triggerIfArmed, RearmableCallback.trigger, h]

/-- Witness for C7 at a concrete state: flushing `5` on an instance armed
with callback `7` has the same state effect as triggering `5` there. -/
theorem triggerIfArmed_armed_matches_trigger_witness :
    ((⟨some 7, []⟩ : RearmableCallback Nat Nat).callback = some 7) ∧
    ((⟨some 7, []⟩ : RearmableCallback Nat Nat).triggerIfArmed 5).1
      = ((⟨some 7, []⟩ : RearmableCallback Nat Nat).trigger 5).1 :=
  ⟨rfl,
   (triggerIfArmed_armed_matches_trigger
     (⟨some 7, []⟩ : RearmableCallback Nat Nat) 5 7 rfl).1⟩

open RearmableCallback in
/-- C9: calling `arm f2` while the slot already holds `f1` and the backlog
is empty silently overwrites the slot with `f2`: the call performs no
invocation, raises nothing, and `f1` is gone from the state without ever
having been invoked. -/
theorem double_arm_discards_first (s : RearmableCallback F A) (f1 f2 : F)
    (h1 : s.callback = some f1) (h2 : s.queue = []) :
    s.arm f2 = (⟨some f2, []⟩, []) := by
  simp [RearmableCallback.arm, h2]

/-- Witness for C9 at a concrete state: arming `8` over an instance already
armed with `7` replaces the slot content with `8` and fires nothing. -/
theorem double_arm_discards_first_witness :
    ((⟨some 7, []⟩ : RearmableCallback Nat Nat).callback = some 7) ∧
    ((⟨some 7, []⟩ : RearmableCallback Nat Nat).queue = []) ∧
    ((⟨some 7, []⟩ : RearmableCallback Nat Nat).arm 8
      = (⟨some 8, []⟩, [])) :=
  ⟨rfl, rfl,
   double_arm_discards_first
     (⟨some 7, []⟩ : RearmableCallback Nat Nat) 7 8 rfl rfl⟩

/-- C8: invoking the wrapper produced by `runIfAlive` while the subject is
still alive (the weak-reference upgrade yields `some shared`) invokes `fn`
exactly once, with the live reference and the forwarded arguments; invoking
it after the subject's destruction (the upgrade yields `none`) performs no
invocation of `fn` and has no effect. -/
theorem runIfAlive_gates_on_liveness (fn : T → A → E) (t : T) (a : A) :
    runIfAlive fn (some t) a = [fn t a] ∧ runIfAlive fn none a = [] :=
  ⟨rfl, rfl⟩

/-- C10: the wrapper produced by `runIfAlive` is not one-shot: over any
sequence of invocations, the total number of runs of `fn` equals the number
of invocations made while the subject was alive, and appending one more
invocation runs `fn` once more when the upgrade succeeds and is an
independent no-op when it fails, regardless of how often the wrapper was
invoked before. -/
theorem runIfAlive_wrapper_reusable (fn : T → A → E)
    (calls : List (Option T × A)) :
    ((invokeRepeatedly fn calls).flatten.length
        = (calls.filter fun c => c.1.isSome).length) ∧
    (∀ t a, invokeRepeatedly fn (calls ++ [(some t, a)])
        = invokeRepeatedly fn calls ++ [[fn t a]]) ∧
    (∀ a, invokeRepeatedly fn (calls ++ [(none, a)])
        = invokeRepeatedly fn calls ++ [[]]) := by
  refine ⟨?_, ?_, ?_⟩
  · induction calls with
    | nil => rfl
    | cons c cs ih =>
      obtain ⟨o, a⟩ := c
      cases o with
      | some t => simpa [invokeRepeatedly, runIfAlive] using ih
      | none => simpa [invokeRepeatedly, runIfAlive] using ih
  · intro t a
    simp [invokeRepeatedly, runIfAlive]
  · intro a
    simp [invokeRepeatedly, runIfAlive]
